import Mathlib

/-!
Shallow embedding of the `ts-ai-agent` library core (src/src/agent.ts,
src/src/prompt.ts, src/src/agent-request.ts): the type-descriptor to
JSON-schema compiler, the function registry, the orchestration engine
`Agent.requestAnyWith`, the prompt data structure (with JS reference
semantics for its message array), and the request builder facade.

JS values are modelled by `JsVal`; machine numbers that only count
(candidate quotas) are modelled as `Nat`.  External collaborators
(`JSON.parse`, `JSON.stringify`, the OpenAI transport) are passed in as
function parameters.  JS exceptions become explicit outcome constructors;
the dedicated `AgentInterruptException` class is a distinct constructor.
-/

/-- A JSON-ish JavaScript value: enough structure for argument payloads,
function results and candidate text. -/
inductive JsVal where
  | undefined
  | null
  | bool (b : Bool)
  | num (n : Int)
  | str (s : String)
  | arr (xs : List JsVal)
  | obj (kvs : List (String × JsVal))
deriving Repr

/-- A reflected type reference, as produced by `typescript-rtti` and consumed
by `AgentFunctionCall.propFromType`.  `cls` carries the `toString()` text that
the compiler compares against (`"class Number"` etc.); `unknown` covers every
other `kind`, carrying that kind and the `toString()` text used in the error
message.  Object members are `(name, isOptional, type)` triples in declared
order; enum values are `(name, numericValue)` pairs in declared order. -/
inductive RTypeRef where
  | cls (toStr : String)
  | arr (elementType : RTypeRef)
  | enum (values : List (String × Int))
  | obj (members : List (String × Bool × RTypeRef))
  | unknown (kind : String) (toStr : String)
deriving Repr

/-- A JSON-Schema-shaped node as built by the compiler: `{type, items?, enum?,
properties?, required?}`.  `properties` is an ordered association list, which
is faithful to the insertion-ordered JS object the source builds. -/
inductive SchemaNode where
  | mk (type : String)
       (items : Option SchemaNode)
       (enum : Option (List String))
       (properties : Option (List (String × SchemaNode)))
       (required : Option (List String))
deriving Repr

/-- The `type` field of a schema node. -/
def SchemaNode.type : SchemaNode → String
  | .mk t _ _ _ _ => t

/-- The `items` field of a schema node. -/
def SchemaNode.items : SchemaNode → Option SchemaNode
  | .mk _ i _ _ _ => i

/-- The `enum` field of a schema node. -/
def SchemaNode.enum : SchemaNode → Option (List String)
  | .mk _ _ e _ _ => e

/-- The `properties` field of a schema node. -/
def SchemaNode.properties : SchemaNode → Option (List (String × SchemaNode))
  | .mk _ _ _ p _ => p

/-- The `required` field of a schema node. -/
def SchemaNode.required : SchemaNode → Option (List String)
  | .mk _ _ _ _ r => r

mutual

/-- `AgentFunctionCall.propFromType(ref, functionName = "")`: compiles a
reflected type reference to a schema node; `.error msg` models the thrown
`Error(msg)`.  Note that the source's recursive calls for array element types
and object member types pass no `functionName`, so the default `""` applies
there. -/
def propFromType : RTypeRef → String → Except String SchemaNode
  | .cls s, _ =>
      if s = "class Number" then .ok (.mk "number" none none none none)
      else if s = "class String" then .ok (.mk "string" none none none none)
      else if s = "class Boolean" then .ok (.mk "boolean" none none none none)
      else .error ("Unknown class " ++ s)
  | .arr e, _ => do
      let items ← propFromType e ""
      .ok (.mk "array" (some items) none none none)
  | .enum vs, _ =>
      .ok (.mk "string" none (some (vs.map Prod.fst)) none none)
  | .obj ms, _ => do
      let (props, req) ← compileMembers ms
      .ok (.mk "object" none none (some props) (some req))
  | .unknown _ s, functionName =>
      .error ("Unknown type " ++ s ++ " in function " ++ functionName)

/-- The loop over `objRef.members` inside `propFromType`'s `object` case:
compiles each member's type (with the default empty `functionName`) and
collects `(properties, required)` in declared order. -/
def compileMembers : List (String × Bool × RTypeRef) →
    Except String (List (String × SchemaNode) × List String)
  | [] => .ok ([], [])
  | (nm, opt, t) :: rest => do
      let prop ← propFromType t ""
      let (props, req) ← compileMembers rest
      .ok ((nm, prop) :: props, if opt then req else nm :: req)

end

/-- Outcome of invoking a registered callable on argument values.  `ret` is a
normal return (a returned Promise is modelled by the value it resolves to),
`raise` a thrown ordinary error (or rejected Promise), `interrupt` a thrown
`AgentInterruptException` carrying its message. -/
inductive FuncOutcome where
  | ret (v : JsVal)
  | raise (msg : String)
  | interrupt (msg : String)

/-- `AgentFunctionCall`: a registered callable together with its name,
optional description and compiled argument schema (`parameters`, absent when
the callable takes no parameters). -/
structure AgentFunctionCall where
  func : List JsVal → FuncOutcome
  name : String
  description : Option String
  parameters : Option SchemaNode

/-- The wire projection `AgentFunctionCall.toChatComletion()` (source spelling
kept): `{name, description, parameters}` without the callable. -/
structure ChatCompletionFunctions where
  name : String
  description : Option String
  parameters : Option SchemaNode

/-- `toChatComletion` drops the callable, keeping the wire fields. -/
def AgentFunctionCall.toChatComletion (fc : AgentFunctionCall) : ChatCompletionFunctions :=
  ⟨fc.name, fc.description, fc.parameters⟩

/-- The loop over `rf.parameters` inside `AgentFunctionCall.fromFunction`:
compiles each reflected parameter `(name, isOptional, type)` with the owning
function's name as context, collecting `(properties, required)` in declared
order. -/
def compileParams (name : String) : List (String × Bool × RTypeRef) →
    Except String (List (String × SchemaNode) × List String)
  | [] => .ok ([], [])
  | (nm, opt, t) :: rest => do
      let prop ← propFromType t name
      let (props, req) ← compileParams name rest
      .ok ((nm, prop) :: props, if opt then req else nm :: req)

/-- `AgentFunctionCall.fromFunction(func, name, description?)`.  The reflected
parameter list (obtained from `reflect(func)` in the source) is passed
explicitly as `(name, isOptional, type)` triples.  With no parameters the
`parameters` schema is left absent; otherwise it is an object schema over the
parameters, compiled with the function's name as context. -/
def AgentFunctionCall.fromFunction (func : List JsVal → FuncOutcome)
    (params : List (String × Bool × RTypeRef)) (name : String)
    (description : Option String) : Except String AgentFunctionCall :=
  if params.isEmpty then .ok ⟨func, name, description, none⟩
  else do
    let (props, req) ← compileParams name params
    .ok ⟨func, name, description, some (.mk "object" none none (some props) (some req))⟩

/-- The `fc.parameters?.required || []` expression used by `Agent.call` to
validate the argument count. -/
def AgentFunctionCall.argNames (fc : AgentFunctionCall) : List String :=
  match fc.parameters with
  | none => []
  | some s => s.required.getD []

/-- An `AgentMessage` / `ChatCompletionRequestMessage`: role (the literal
role string), optional content, optional name, optional function_call.  The
function-call payload on a prompt message has both fields optional. -/
structure AgentFunctionResult where
  name : Option String
  arguments : Option String
deriving Repr

/-- A chat message as stored in a prompt and sent over the wire. -/
structure AgentMessage where
  role : String
  content : Option String
  name : Option String := none
  function_call : Option AgentFunctionResult := none
deriving Repr

/-- Generation options merged into every transport request
(`{...this.options}`). -/
structure AgentOptions where
  model : String := "gpt-3.5-turbo-0613"
  temperature : ℚ := 0.8
  top_p : ℚ := 0.9
  max_tokens : Nat := 2048

/-- The mutable-array heap: JS arrays of messages are identified by an index
into this store, so that two `AgentPrompt` objects can alias the same array,
exactly as `new AgentPrompt(this.prompt, this.messages)` shares the array
reference in the source. -/
abbrev MsgHeap := List (List AgentMessage)

/-- `AgentPrompt`: the prompt string plus a reference to its message array in
the heap. -/
structure AgentPrompt where
  prompt : String
  msgs : Nat

/-- `new AgentPrompt(prompt)` with the default `messages = []`: allocates a
fresh empty array. -/
def AgentPrompt.fromString (h : MsgHeap) (prompt : String) : MsgHeap × AgentPrompt :=
  (h ++ [[]], ⟨prompt, h.length⟩)

/-- `getMessages()`: reads the message array through the reference. -/
def AgentPrompt.getMessages (h : MsgHeap) (p : AgentPrompt) : List AgentMessage :=
  h.getD p.msgs []

/-- `addMessage(message)`: `this.messages.push(message)` — mutates the shared
array in the heap and returns `this` (the same `AgentPrompt` value). -/
def AgentPrompt.addMessage (h : MsgHeap) (p : AgentPrompt) (m : AgentMessage) : MsgHeap :=
  h.set p.msgs (h.getD p.msgs [] ++ [m])

/-- `addUserMessage(message)`. -/
def AgentPrompt.addUserMessage (h : MsgHeap) (p : AgentPrompt) (message : String) : MsgHeap :=
  p.addMessage h ⟨"user", some message, none, none⟩

/-- `addSystemMessage(message)`. -/
def AgentPrompt.addSystemMessage (h : MsgHeap) (p : AgentPrompt) (message : String) : MsgHeap :=
  p.addMessage h ⟨"system", some message, none, none⟩

/-- `addAgentMessage(message)`: assistant role. -/
def AgentPrompt.addAgentMessage (h : MsgHeap) (p : AgentPrompt) (message : String) : MsgHeap :=
  p.addMessage h ⟨"assistant", some message, none, none⟩

/-- `addAgentFunctionResult(result)`: assistant role, function_call payload. -/
def AgentPrompt.addAgentFunctionResult (h : MsgHeap) (p : AgentPrompt)
    (result : AgentFunctionResult) : MsgHeap :=
  p.addMessage h ⟨"assistant", none, none, some result⟩

/-- `addFunctionMessage(name, message)`. -/
def AgentPrompt.addFunctionMessage (h : MsgHeap) (p : AgentPrompt)
    (name message : String) : MsgHeap :=
  p.addMessage h ⟨"function", some message, some name, none⟩

/-- `copy()`: `new AgentPrompt(this.prompt, this.messages)`.  The message
array is passed by reference, NOT cloned — the copy aliases the same array. -/
def AgentPrompt.copy (p : AgentPrompt) : AgentPrompt :=
  ⟨p.prompt, p.msgs⟩

/-- `AgentPrompt.setPlaceholders(prompt, placeholders)`: replaces every
occurrence of a doubly-braced key by its value, over the entries in order. -/
def AgentPrompt.setPlaceholders (prompt : String) (placeholders : List (String × String)) : String :=
  placeholders.foldl (fun acc kv => acc.replace ("\x7b\x7b" ++ kv.1 ++ "\x7d\x7d") kv.2) prompt

/-- `set(placeholders)`: returns `new AgentPrompt(substituted, this.messages)`
— again sharing the message array reference. -/
def AgentPrompt.set (p : AgentPrompt) (placeholders : List (String × String)) : AgentPrompt :=
  ⟨AgentPrompt.setPlaceholders p.prompt placeholders, p.msgs⟩

/-- `prepareInput(input, for_functions)` of the base class: `''` for
null/undefined, `JSON.stringify` (passed in as `stringify`) for objects and
arrays, `String(input)` otherwise.  Always a string in the base class. -/
def AgentPrompt.prepareInput (stringify : JsVal → String) (input : JsVal) : String :=
  match input with
  | .undefined => ""
  | .null => ""
  | .obj kvs => stringify (.obj kvs)
  | .arr xs => stringify (.arr xs)
  | .num n => toString n
  | .str s => s
  | .bool b => if b then "true" else "false"

/-- `prepareTerminalPrompt(input, for_functions)` of the base class. -/
def AgentPrompt.prepareTerminalPrompt (for_functions : List String) : Option String :=
  if 0 < for_functions.length then
    some "The next message should exclusively invoke the function."
  else none

/-- `prepareMessages(input, for_functions)`: system message with the prompt,
then the prepared input as a user message, then the stored messages, then the
terminal system message when functions are requested. -/
def AgentPrompt.prepareMessages (h : MsgHeap) (p : AgentPrompt) (stringify : JsVal → String)
    (input : JsVal) (for_functions : List String) : List AgentMessage :=
  [⟨"system", some p.prompt, none, none⟩,
   ⟨"user", some (AgentPrompt.prepareInput stringify input), none, none⟩]
  ++ p.getMessages h
  ++ (match AgentPrompt.prepareTerminalPrompt for_functions with
      | some t => [⟨"system", some t, none, none⟩]
      | none => [])

/-- A `function_call` payload on a returned candidate: both fields are
present when the branch that reads them is taken. -/
structure FunctionCallPayload where
  name : String
  arguments : String
deriving Repr

/-- The `message` of one returned choice. -/
structure ChoiceMessage where
  content : Option String
  function_call : Option FunctionCallPayload
deriving Repr

/-- One raw candidate (`choice`) of the transport response. -/
structure Choice where
  message : ChoiceMessage
deriving Repr

/-- The transport response body: `data.choices`. -/
structure TransportResponse where
  choices : List Choice
deriving Repr

/-- The transport request payload assembled by `requestAnyWith`: merged
options, the candidate count `n`, the prepared messages, and the function
list (absent when the filtered list is empty, modelling
`delete args.functions`). -/
structure TransportRequest where
  options : AgentOptions
  n : Nat
  messages : List AgentMessage
  functions : Option (List ChatCompletionFunctions)

/-- `AgentResult<T>`: an accepted value plus, when it came from a function
dispatch, the originating `function_call` payload. -/
structure AgentResult where
  value : JsVal
  function_result : Option FunctionCallPayload
deriving Repr

/-- The one error value a failed orchestration call terminates with.
`config` models the quota-invariant `Error`s thrown before the request,
`noMessages` the `No messages` error, `transport` a rejected transport call,
`parse` a `JSON.parse` exception recorded into the scan's `error` variable,
`interrupt` an `AgentInterruptException`, and `noFunctionCallFound` the
generic `Error("No function call found")`. -/
inductive EngineError where
  | config (msg : String)
  | noMessages
  | transport (msg : String)
  | parse (msg : String)
  | interrupt (msg : String)
  | noFunctionCallFound
deriving Repr, DecidableEq

/-- The observable behaviour of one `requestAnyWith` subscription: the
sequence of `subscriber.next` emissions, the terminal error (`none` when the
observable completes without error), and how many transport calls were
issued. -/
structure RunOutcome where
  emitted : List AgentResult
  terminal : Option EngineError
  transportCalls : Nat
deriving Repr

/-- The `Agent`: injected transport, options, canonical prompt and the
function registry `functionCalls` (an insertion-ordered string-keyed map). -/
structure Agent where
  api : TransportRequest → Except String TransportResponse
  options : AgentOptions
  prompt : AgentPrompt
  functionCalls : List (String × AgentFunctionCall)

/-- `getPrompt()`. -/
def Agent.getPrompt (a : Agent) : AgentPrompt := a.prompt

/-- `getFunctionNames()`: `Object.keys(this.functionCalls)`. -/
def Agent.getFunctionNames (a : Agent) : List String :=
  a.functionCalls.map Prod.fst

/-- `getFunctionCalls()`: `Object.values(this.functionCalls)` projected to the
wire shape. -/
def Agent.getFunctionCalls (a : Agent) : List ChatCompletionFunctions :=
  a.functionCalls.map (fun e => e.2.toChatComletion)

/-- Updating the string-keyed object `this.functionCalls[name] = fc`:
overwrites in place when the key exists, appends otherwise. -/
def insertFunctionCall (reg : List (String × AgentFunctionCall)) (name : String)
    (fc : AgentFunctionCall) : List (String × AgentFunctionCall) :=
  if reg.any (fun e => e.1 = name) then
    reg.map (fun e => if e.1 = name then (name, fc) else e)
  else reg ++ [(name, fc)]

/-- `registerFunction(func, name, description?)`: compiles the schema via
`fromFunction` and stores the spec under `name` (last write wins).  A schema
compilation failure propagates as the registration-time error. -/
def Agent.registerFunction (a : Agent) (func : List JsVal → FuncOutcome)
    (params : List (String × Bool × RTypeRef)) (name : String)
    (description : Option String) : Except String Agent := do
  let fc ← AgentFunctionCall.fromFunction func params name description
  .ok { a with functionCalls := insertFunctionCall a.functionCalls name fc }

/-- Outcome of `Agent.call(name, ...args)`: the distinguishable failure
classes (`unknownFunction`, `argCountMismatch`), an ordinary callable error,
an `AgentInterruptException` from the callable, or the returned value. -/
inductive CallOutcome where
  | ok (v : JsVal)
  | unknownFunction (name : String)
  | argCountMismatch (expected got : Nat)
  | funcError (msg : String)
  | funcInterrupt (msg : String)

/-- `Agent.call(name, ...args)`: unknown name fails; then the argument count
is checked against `fc.parameters?.required || []` only; then the callable is
invoked on the supplied values. -/
def Agent.call (a : Agent) (name : String) (args : List JsVal) : CallOutcome :=
  match a.functionCalls.lookup name with
  | none => .unknownFunction name
  | some fc =>
      let argNames := fc.argNames
      if argNames.length ≠ args.length then
        .argCountMismatch argNames.length args.length
      else
        match fc.func args with
        | .ret v => .ok v
        | .raise msg => .funcError msg
        | .interrupt msg => .funcInterrupt msg

/-- `Object.values(args)` on the parsed argument payload: for a JSON object
the property values in the object's own key order; for an array its elements;
for a string its characters; for other primitives `[]`.  `none` models the
`TypeError` that `Object.values` throws on `null`/`undefined`. -/
def objectValues : JsVal → Option (List JsVal)
  | .null => none
  | .undefined => none
  | .obj kvs => some (kvs.map Prod.snd)
  | .arr xs => some xs
  | .str s => some (s.toList.map (fun c => .str c.toString))
  | .num _ => some []
  | .bool _ => some []

/-- The text value `choice.message.content as T` used for a plain-text
candidate. -/
def contentValue (m : ChoiceMessage) : JsVal :=
  match m.content with
  | some s => .str s
  | none => .undefined

/-- How the per-candidate scan of `requestAnyWith` ends: `finished` by
exhausting the choice list, `stopped` by the `processed >= min` break,
`interrupted` by an `AgentInterruptException` (aborting immediately with the
results emitted so far). -/
inductive ScanEnd where
  | finished (emitted : List AgentResult) (error : Option EngineError) (processed : Nat)
  | stopped (emitted : List AgentResult) (error : Option EngineError) (processed : Nat)
  | interrupted (msg : String) (emitted : List AgentResult)

/-- Whether the early-stop rule fires: `min !== undefined && processed >= min`. -/
def minReached (min? : Option Nat) (processed : Nat) : Bool :=
  match min? with
  | some m => processed ≥ m
  | none => false

/-- The `for (const choice of data.choices)` scan of `requestAnyWith`,
carrying the emitted results, the recorded `error` and the `processed` count.
A function-call candidate is parsed (a parse failure is recorded and the
candidate skipped), then dispatched via `Agent.call`; an
`AgentInterruptException` aborts the whole scan, any other dispatch failure
skips the candidate with no recording (the inner `catch` does a bare
`continue`).  A plain-text candidate is accepted only when the request was
not function-restricted.  After each acceptance the early-stop rule is
checked. -/
def scanChoices (a : Agent) (parseArgs : String → Except String JsVal)
    (isFunctionCall : Bool) (min? : Option Nat) :
    List Choice → List AgentResult → Option EngineError → Nat → ScanEnd
  | [], acc, err, processed => .finished acc err processed
  | c :: rest, acc, err, processed =>
      match c.message.function_call with
      | some fc =>
          match parseArgs fc.arguments with
          | .error msg => scanChoices a parseArgs isFunctionCall min? rest acc (some (.parse msg)) processed
          | .ok args =>
              match objectValues args with
              | none => scanChoices a parseArgs isFunctionCall min? rest acc err processed
              | some vals =>
                  match a.call fc.name vals with
                  | .ok v =>
                      let acc' := acc ++ [⟨v, some fc⟩]
                      let processed' := processed + 1
                      if minReached min? processed' then .stopped acc' err processed'
                      else scanChoices a parseArgs isFunctionCall min? rest acc' err processed'
                  | .funcInterrupt msg => .interrupted msg acc
                  | .unknownFunction _ => scanChoices a parseArgs isFunctionCall min? rest acc err processed
                  | .argCountMismatch _ _ => scanChoices a parseArgs isFunctionCall min? rest acc err processed
                  | .funcError _ => scanChoices a parseArgs isFunctionCall min? rest acc err processed
      | none =>
          if isFunctionCall then scanChoices a parseArgs isFunctionCall min? rest acc err processed
          else
            let acc' := acc ++ [⟨contentValue c.message, none⟩]
            let processed' := processed + 1
            if minReached min? processed' then .stopped acc' err processed'
            else scanChoices a parseArgs isFunctionCall min? rest acc' err processed'

/-- `Agent.requestAnyWith(prompt, for_functions, input, n, min?, required?)`:
validates the quota invariants (throwing a configuration error before any
transport call), builds the transport payload, issues exactly one transport
call, scans the returned candidates, and settles the outcome: interrupt
aborts with the interrupt; otherwise `processed < required` fails with the
recorded error or the generic `No function call found`, and `processed >=
required` succeeds with the emitted results. -/
def Agent.requestAnyWith (a : Agent) (h : MsgHeap) (stringify : JsVal → String)
    (parseArgs : String → Except String JsVal) (prompt : AgentPrompt)
    (for_functions : List String) (input : JsVal) (n : Nat)
    (min? : Option Nat) (required? : Option Nat) : RunOutcome :=
  let isFunctionCall := decide (0 < for_functions.length)
  let required := required?.getD 1
  if required > n then
    ⟨[], some (.config s!"required {required} > n {n}"), 0⟩
  else if (match min? with | some m => decide (required > m) | none => false) then
    ⟨[], some (.config s!"required {required} > min"), 0⟩
  else if (match min? with | some m => decide (m > n) | none => false) then
    ⟨[], some (.config s!"min > n {n}"), 0⟩
  else
    let functions := a.getFunctionCalls.filter (fun f => for_functions.contains f.name)
    let messages := prompt.prepareMessages h stringify input for_functions
    let req : TransportRequest :=
      ⟨a.options, n, messages, if functions.isEmpty then none else some functions⟩
    if messages.isEmpty then ⟨[], some .noMessages, 0⟩
    else
      match a.api req with
      | .error e => ⟨[], some (.transport e), 1⟩
      | .ok resp =>
          match scanChoices a parseArgs isFunctionCall min? resp.choices [] none 0 with
          | .interrupted msg acc => ⟨acc, some (.interrupt msg), 1⟩
          | .finished acc err processed =>
              if processed < required then ⟨acc, some (err.getD .noFunctionCallFound), 1⟩
              else ⟨acc, none, 1⟩
          | .stopped acc err processed =>
              if processed < required then ⟨acc, some (err.getD .noFunctionCallFound), 1⟩
              else ⟨acc, none, 1⟩

/-- `AgentRequestBuilder`: accumulates prompt/quota/function-subset settings.
Field names keep the source's underscore prefixes. -/
structure AgentRequestBuilder where
  agent : Agent
  _prompt : AgentPrompt
  _functions : List String
  _n : Nat
  _min : Option Nat
  _required : Option Nat

/-- The `AgentRequestBuilder(agent, all_functions = true)` constructor:
`this._prompt = agent.getPrompt().copy()` (sharing the message array through
`copy`), and all function names when `all_functions`. -/
def AgentRequestBuilder.new (agent : Agent) (all_functions : Bool := true) : AgentRequestBuilder :=
  ⟨agent, agent.getPrompt.copy,
   if all_functions then agent.getFunctionNames else [], 1, none, none⟩

/-- `AgentRequestBuilder.create(agent)`. -/
def AgentRequestBuilder.create (agent : Agent) : AgentRequestBuilder :=
  AgentRequestBuilder.new agent

/-- `prompt(prompt)`: stores `prompt.copy()`. -/
def AgentRequestBuilder.prompt (b : AgentRequestBuilder) (p : AgentPrompt) : AgentRequestBuilder :=
  { b with _prompt := p.copy }

/-- `n(n)`. -/
def AgentRequestBuilder.n (b : AgentRequestBuilder) (n : Nat) : AgentRequestBuilder :=
  { b with _n := n }

/-- `min(min)`. -/
def AgentRequestBuilder.min (b : AgentRequestBuilder) (m : Nat) : AgentRequestBuilder :=
  { b with _min := some m }

/-- `required(required)`. -/
def AgentRequestBuilder.required (b : AgentRequestBuilder) (r : Nat) : AgentRequestBuilder :=
  { b with _required := some r }

/-- `withTries(tries)`. -/
def AgentRequestBuilder.withTries (b : AgentRequestBuilder) (tries : Nat) : AgentRequestBuilder :=
  { b with _n := tries, _min := some 1, _required := some 1 }

/-- `functions(functions)`. -/
def AgentRequestBuilder.functions (b : AgentRequestBuilder) (fs : List String) : AgentRequestBuilder :=
  { b with _functions := fs }

/-- `function(func)`. -/
def AgentRequestBuilder.function (b : AgentRequestBuilder) (f : String) : AgentRequestBuilder :=
  { b with _functions := [f] }

/-- `addUserMessage(message)`: `this._prompt = this._prompt.addUserMessage(message)`
— `AgentPrompt.addUserMessage` pushes onto the (shared) message array and
returns `this`, so the builder's prompt value is unchanged while the heap is
mutated. -/
def AgentRequestBuilder.addUserMessage (h : MsgHeap) (b : AgentRequestBuilder)
    (message : String) : MsgHeap × AgentRequestBuilder :=
  (AgentPrompt.addUserMessage h b._prompt message, b)

/-- `addAgentMessage(message)`. -/
def AgentRequestBuilder.addAgentMessage (h : MsgHeap) (b : AgentRequestBuilder)
    (message : String) : MsgHeap × AgentRequestBuilder :=
  (AgentPrompt.addAgentMessage h b._prompt message, b)

/-- `addFunctionMessage(name, message)`. -/
def AgentRequestBuilder.addFunctionMessage (h : MsgHeap) (b : AgentRequestBuilder)
    (name message : String) : MsgHeap × AgentRequestBuilder :=
  (AgentPrompt.addFunctionMessage h b._prompt name message, b)

/-- `addAgentFunctionResult(result)`. -/
def AgentRequestBuilder.addAgentFunctionResult (h : MsgHeap) (b : AgentRequestBuilder)
    (result : AgentFunctionResult) : MsgHeap × AgentRequestBuilder :=
  (AgentPrompt.addAgentFunctionResult h b._prompt result, b)

/-- `set(placeholders)`: `this._prompt = this._prompt.set(placeholders)` —
a fresh `AgentPrompt` value that still shares the message array. -/
def AgentRequestBuilder.set (b : AgentRequestBuilder)
    (placeholders : List (String × String)) : AgentRequestBuilder :=
  { b with _prompt := b._prompt.set placeholders }

/-- `request(input)`: hands the assembled request to the engine. -/
def AgentRequestBuilder.request (b : AgentRequestBuilder) (h : MsgHeap)
    (stringify : JsVal → String) (parseArgs : String → Except String JsVal)
    (input : JsVal) : RunOutcome :=
  b.agent.requestAnyWith h stringify parseArgs b._prompt b._functions input b._n b._min b._required

/-- Projects a successful schema compilation result, with an inert default for
the failure case (used only to state what a successful object compilation
contains). -/
def schemaOrDefault : Except String SchemaNode → SchemaNode
  | .ok node => node
  | .error _ => .mk "" none none none none

/-- An agent whose registered function returns its own argument list, making
the positional argument order observable in the emitted results; its
transport returns two function-call candidates. -/
def recorderAgent : Agent :=
  { api := fun _ => .ok ⟨[⟨⟨none, some ⟨"f", "payload1"⟩⟩⟩, ⟨⟨none, some ⟨"f", "payload2"⟩⟩⟩]⟩,
    options := {},
    prompt := ⟨"p", 0⟩,
    functionCalls := [("f",
      ⟨fun args => .ret (.arr args), "f", none,
       some (.mk "object" none none
         (some [("x", .mk "number" none none none none), ("y", .mk "number" none none none none)])
         (some ["x", "y"]))⟩)] }

/-- A parse function mapping the two candidates of `recorderAgent` to two
payloads that are equal as key-value maps but list their keys in opposite
orders. -/
def recorderParse (v1 v2 : JsVal) : String → Except String JsVal :=
  fun s => if s = "payload1" then .ok (.obj [("a", v1), ("b", v2)])
           else .ok (.obj [("b", v2), ("a", v1)])

/-- A minimal agent with an empty message array at heap cell 0, used to
exhibit the shared-array mutation through the request builder. -/
def c5Agent : Agent :=
  { api := fun _ => .error "unused",
    options := {},
    prompt := ⟨"base", 0⟩,
    functionCalls := [] }

/-- An agent whose single registered function always raises
`AgentInterruptException`, with a transport response placing a further
candidate after the interrupting one. -/
def c1Agent : Agent :=
  { api := fun _ => .ok ⟨[⟨⟨none, some ⟨"f", "argsjson"⟩⟩⟩, ⟨⟨some "later", none⟩⟩]⟩,
    options := {},
    prompt := ⟨"p", 0⟩,
    functionCalls := [("f", ⟨fun _ => .interrupt "stop", "f", none, none⟩)] }

/-- An agent whose transport returns five plain-text candidates. -/
def c2StopAgent : Agent :=
  { api := fun _ => .ok ⟨[⟨⟨some "t1", none⟩⟩, ⟨⟨some "t2", none⟩⟩, ⟨⟨some "t3", none⟩⟩,
      ⟨⟨some "t4", none⟩⟩, ⟨⟨some "t5", none⟩⟩]⟩,
    options := {},
    prompt := ⟨"p", 0⟩,
    functionCalls := [] }

/-- An agent whose transport returns one plain-text candidate. -/
def c2CexAgent : Agent :=
  { api := fun _ => .ok ⟨[⟨⟨some "t", none⟩⟩]⟩,
    options := {},
    prompt := ⟨"p", 0⟩,
    functionCalls := [] }

/-- An agent with no registered functions and a failing transport. -/
def plainAgent : Agent :=
  { api := fun _ => .error "api failure",
    options := {},
    prompt := ⟨"p", 0⟩,
    functionCalls := [] }

/-- An agent whose transport returns one plain-text candidate. -/
def c4Agent : Agent :=
  { api := fun _ => .ok ⟨[⟨⟨some "hi", none⟩⟩]⟩,
    options := {},
    prompt := ⟨"p", 0⟩,
    functionCalls := [] }

/-- An agent with no registered functions whose transport returns one
plain-text candidate. -/
def c9Agent : Agent :=
  { api := fun _ => .ok ⟨[⟨⟨some "hi", none⟩⟩]⟩,
    options := {},
    prompt := ⟨"p", 0⟩,
    functionCalls := [] }

/-- An agent with one registered function `g` taking one required
parameter. -/
def c8Agent : Agent :=
  { api := fun _ => .error "unused",
    options := {},
    prompt := ⟨"p", 0⟩,
    functionCalls := [("g",
      ⟨fun _ => .ret .null, "g", none,
       some (.mk "object" none none (some [("x", .mk "number" none none none none)])
         (some ["x"]))⟩)] }


/-- Composition of the candidate scan over a split choice list: scanning
`xs ++ ys` first scans `xs`; a break or an interrupt inside `xs` makes `ys`
unreachable. -/
theorem scanChoices_append (a : Agent) (parse : String → Except String JsVal)
    (isFC : Bool) (min? : Option Nat) (xs ys : List Choice) :
    ∀ acc err processed,
    scanChoices a parse isFC min? (xs ++ ys) acc err processed =
      match scanChoices a parse isFC min? xs acc err processed with
      | .finished acc' err' p' => scanChoices a parse isFC min? ys acc' err' p'
      | .stopped acc' err' p' => .stopped acc' err' p'
      | .interrupted m acc' => .interrupted m acc' := by
  induction xs with
  | nil => intro acc err p; rfl
  | cons c rest ih =>
      intro acc err p
      rcases c with ⟨⟨content, fc?⟩⟩
      cases fc? with
      | none =>
          cases isFC with
          | true => simpa only [List.cons_append, scanChoices] using ih ..
          | false =>
              by_cases hm : minReached min? (p + 1)
              · simp only [List.cons_append, scanChoices, Bool.false_eq_true, if_false, hm, if_true]
              · simp only [List.cons_append, scanChoices, Bool.false_eq_true, if_false, hm]
                exact ih ..
      | some fc =>
          cases hp : parse fc.arguments with
          | error msg =>
              simp only [List.cons_append, scanChoices, hp]
              exact ih ..
          | ok args =>
              cases ho : objectValues args with
              | none =>
                  simp only [List.cons_append, scanChoices, hp, ho]
                  exact ih ..
              | some vals =>
                  cases hc : a.call fc.name vals with
                  | ok v =>
                      by_cases hm : minReached min? (p + 1)
                      · simp only [List.cons_append, scanChoices, hp, ho, hc, hm, if_true]
                      · simp only [List.cons_append, scanChoices, hp, ho, hc, hm, if_false,
                          Bool.false_eq_true]
                        exact ih ..
                  | unknownFunction nm =>
                      simp only [List.cons_append, scanChoices, hp, ho, hc]
                      exact ih ..
                  | argCountMismatch e g =>
                      simp only [List.cons_append, scanChoices, hp, ho, hc]
                      exact ih ..
                  | funcError m =>
                      simp only [List.cons_append, scanChoices, hp, ho, hc]
                      exact ih ..
                  | funcInterrupt m =>
                      simp only [List.cons_append, scanChoices, hp, ho, hc]

/-- The prepared message list always starts with the system message carrying
the prompt, so the `No messages` branch of `requestAnyWith` is unreachable
for the base prompt class. -/
theorem prepareMessages_isEmpty_false (h : MsgHeap) (p : AgentPrompt)
    (stringify : JsVal → String) (input : JsVal) (for_functions : List String) :
    (p.prepareMessages h stringify input for_functions).isEmpty = false := rfl

/-- The early-stop test with a defined minimum is the comparison `processed >= min`. -/
theorem minReached_some (m p : Nat) : minReached (some m) p = decide (p ≥ m) := rfl

/-- When the scan starts below a defined minimum and ends by the early-stop
break, the processed count ends exactly at the minimum and exactly
`min - processed` further results were emitted. -/
theorem scanChoices_stopped_min (a : Agent) (parse : String → Except String JsVal)
    (isFC : Bool) (m : Nat) :
    ∀ (cs : List Choice) (acc : List AgentResult) (err : Option EngineError) (p : Nat)
      (acc' : List AgentResult) (err' : Option EngineError) (p' : Nat),
    scanChoices a parse isFC (some m) cs acc err p = .stopped acc' err' p' →
    p < m →
    p' = m ∧ acc'.length = acc.length + (m - p) := by
  intro cs
  induction cs with
  | nil =>
      intro acc err p acc' err' p' hscan hp
      simp only [scanChoices] at hscan
      exact ScanEnd.noConfusion hscan
  | cons c rest ih =>
      intro acc err p acc' err' p' hscan hp
      rcases c with ⟨⟨content, fc?⟩⟩
      cases fc? with
      | none =>
          cases isFC with
          | true =>
              simp only [scanChoices] at hscan
              exact ih _ _ _ _ _ _ hscan hp
          | false =>
              by_cases hm : minReached (some m) (p + 1)
              · simp only [scanChoices, Bool.false_eq_true, if_false, hm, if_true] at hscan
                obtain ⟨h1, h2, h3⟩ := ScanEnd.stopped.inj hscan
                simp only [minReached_some, ge_iff_le, decide_eq_true_eq] at hm
                subst h1; subst h3
                constructor
                · omega
                · simp only [List.length_append, List.length_cons, List.length_nil]
                  omega
              · simp only [scanChoices, Bool.false_eq_true, if_false, hm] at hscan
                simp only [minReached_some, ge_iff_le, decide_eq_true_eq] at hm
                have := ih _ _ _ _ _ _ hscan (by omega)
                obtain ⟨h1, h2⟩ := this
                refine ⟨h1, ?_⟩
                simp only [List.length_append, List.length_cons, List.length_nil] at h2
                omega
      | some fc =>
          cases hparse : parse fc.arguments with
          | error msg =>
              simp only [scanChoices, hparse] at hscan
              exact ih _ _ _ _ _ _ hscan hp
          | ok args =>
              cases ho : objectValues args with
              | none =>
                  simp only [scanChoices, hparse, ho] at hscan
                  exact ih _ _ _ _ _ _ hscan hp
              | some vals =>
                  cases hc : a.call fc.name vals with
                  | ok v =>
                      by_cases hm : minReached (some m) (p + 1)
                      · simp only [scanChoices, hparse, ho, hc, hm, if_true] at hscan
                        obtain ⟨h1, h2, h3⟩ := ScanEnd.stopped.inj hscan
                        simp only [minReached_some, ge_iff_le, decide_eq_true_eq] at hm
                        subst h1; subst h3
                        constructor
                        · omega
                        · simp only [List.length_append, List.length_cons, List.length_nil]
                          omega
                      · simp only [scanChoices, hparse, ho, hc, hm, Bool.false_eq_true,
                          if_false] at hscan
                        simp only [minReached_some, ge_iff_le, decide_eq_true_eq] at hm
                        have := ih _ _ _ _ _ _ hscan (by omega)
                        obtain ⟨h1, h2⟩ := this
                        refine ⟨h1, ?_⟩
                        simp only [List.length_append, List.length_cons, List.length_nil] at h2
                        omega
                  | unknownFunction nm =>
                      simp only [scanChoices, hparse, ho, hc] at hscan
                      exact ih _ _ _ _ _ _ hscan hp
                  | argCountMismatch e g =>
                      simp only [scanChoices, hparse, ho, hc] at hscan
                      exact ih _ _ _ _ _ _ hscan hp
                  | funcError msg =>
                      simp only [scanChoices, hparse, ho, hc] at hscan
                      exact ih _ _ _ _ _ _ hscan hp
                  | funcInterrupt msg =>
                      simp only [scanChoices, hparse, ho, hc] at hscan
                      exact ScanEnd.noConfusion hscan

/-- When the scan starts below a defined minimum and ends by exhausting the
choice list (no break), the processed count is still below the minimum. -/
theorem scanChoices_finished_lt_min (a : Agent) (parse : String → Except String JsVal)
    (isFC : Bool) (m : Nat) :
    ∀ (cs : List Choice) (acc : List AgentResult) (err : Option EngineError) (p : Nat)
      (acc' : List AgentResult) (err' : Option EngineError) (p' : Nat),
    scanChoices a parse isFC (some m) cs acc err p = .finished acc' err' p' →
    p < m →
    p' < m := by
  intro cs
  induction cs with
  | nil =>
      intro acc err p acc' err' p' hscan hp
      simp only [scanChoices] at hscan
      obtain ⟨h1, h2, h3⟩ := ScanEnd.finished.inj hscan
      omega
  | cons c rest ih =>
      intro acc err p acc' err' p' hscan hp
      rcases c with ⟨⟨content, fc?⟩⟩
      cases fc? with
      | none =>
          cases isFC with
          | true =>
              simp only [scanChoices] at hscan
              exact ih _ _ _ _ _ _ hscan hp
          | false =>
              by_cases hm : minReached (some m) (p + 1)
              · simp only [scanChoices, Bool.false_eq_true, if_false, hm, if_true] at hscan
                exact ScanEnd.noConfusion hscan
              · simp only [scanChoices, Bool.false_eq_true, if_false, hm] at hscan
                simp only [minReached_some, ge_iff_le, decide_eq_true_eq] at hm
                exact ih _ _ _ _ _ _ hscan (by omega)
      | some fc =>
          cases hparse : parse fc.arguments with
          | error msg =>
              simp only [scanChoices, hparse] at hscan
              exact ih _ _ _ _ _ _ hscan hp
          | ok args =>
              cases ho : objectValues args with
              | none =>
                  simp only [scanChoices, hparse, ho] at hscan
                  exact ih _ _ _ _ _ _ hscan hp
              | some vals =>
                  cases hc : a.call fc.name vals with
                  | ok v =>
                      by_cases hm : minReached (some m) (p + 1)
                      · simp only [scanChoices, hparse, ho, hc, hm, if_true] at hscan
                        exact ScanEnd.noConfusion hscan
                      · simp only [scanChoices, hparse, ho, hc, hm, Bool.false_eq_true,
                          if_false] at hscan
                        simp only [minReached_some, ge_iff_le, decide_eq_true_eq] at hm
                        exact ih _ _ _ _ _ _ hscan (by omega)
                  | unknownFunction nm =>
                      simp only [scanChoices, hparse, ho, hc] at hscan
                      exact ih _ _ _ _ _ _ hscan hp
                  | argCountMismatch e g =>
                      simp only [scanChoices, hparse, ho, hc] at hscan
                      exact ih _ _ _ _ _ _ hscan hp
                  | funcError msg =>
                      simp only [scanChoices, hparse, ho, hc] at hscan
                      exact ih _ _ _ _ _ _ hscan hp
                  | funcInterrupt msg =>
                      simp only [scanChoices, hparse, ho, hc] at hscan
                      exact ScanEnd.noConfusion hscan

/-- Under a valid quota configuration, `requestAnyWith` issues the transport
call on the assembled payload and settles the outcome from the candidate
scan. -/
theorem requestAnyWith_eq_of_valid (a : Agent) (h : MsgHeap) (stringify : JsVal → String)
    (parseArgs : String → Except String JsVal) (prompt : AgentPrompt)
    (for_functions : List String) (input : JsVal) (n : Nat)
    (min? required? : Option Nat)
    (hreq : required?.getD 1 ≤ n)
    (hmin : ∀ m, min? = some m → required?.getD 1 ≤ m ∧ m ≤ n) :
    a.requestAnyWith h stringify parseArgs prompt for_functions input n min? required? =
      (match a.api ⟨a.options, n, prompt.prepareMessages h stringify input for_functions,
          if (a.getFunctionCalls.filter (fun f => for_functions.contains f.name)).isEmpty then none
          else some (a.getFunctionCalls.filter (fun f => for_functions.contains f.name))⟩ with
       | .error e => ⟨[], some (.transport e), 1⟩
       | .ok resp =>
           match scanChoices a parseArgs (decide (0 < for_functions.length)) min?
               resp.choices [] none 0 with
           | .interrupted msg acc => ⟨acc, some (.interrupt msg), 1⟩
           | .finished acc err processed =>
               if processed < required?.getD 1 then ⟨acc, some (err.getD .noFunctionCallFound), 1⟩
               else ⟨acc, none, 1⟩
           | .stopped acc err processed =>
               if processed < required?.getD 1 then ⟨acc, some (err.getD .noFunctionCallFound), 1⟩
               else ⟨acc, none, 1⟩) := by
  cases hm : min? with
  | none =>
      have h1 : ¬ (required?.getD 1 > n) := by omega
      simp only [Agent.requestAnyWith, h1, if_false, Bool.false_eq_true,
        prepareMessages_isEmpty_false]
  | some m =>
      have h1 : ¬ (required?.getD 1 > n) := by omega
      obtain ⟨hrm, hmn⟩ := hmin m hm
      have h2 : decide (required?.getD 1 > m) = false := by
        simp only [decide_eq_false_iff_not]; omega
      have h3 : decide (m > n) = false := by
        simp only [decide_eq_false_iff_not]; omega
      simp only [Agent.requestAnyWith, h1, h2, h3, if_false, Bool.false_eq_true,
        prepareMessages_isEmpty_false]

/-- In a function-restricted call, a response of plain-text candidates leaves
the scan state untouched: nothing is accepted, counted or recorded. -/
theorem scanChoices_all_text (a : Agent) (parse : String → Except String JsVal)
    (min? : Option Nat) :
    ∀ (cs : List Choice) (acc : List AgentResult) (err : Option EngineError) (p : Nat),
    (∀ c ∈ cs, c.message.function_call = none) →
    scanChoices a parse true min? cs acc err p = .finished acc err p := by
  intro cs
  induction cs with
  | nil => intro acc err p _; rfl
  | cons c rest ih =>
      intro acc err p hall
      have hc : c.message.function_call = none := hall c (by simp)
      simp only [scanChoices, hc, if_true]
      exact ih acc err p (fun c' hc' => hall c' (by simp [hc']))

/-- A successful object-member compilation yields one compiled property per
member in declared order and lists exactly the non-optional member names, in
declared order, as required. -/
theorem compileMembers_ok :
    ∀ (ms : List (String × Bool × RTypeRef)) (props : List (String × SchemaNode))
      (req : List String),
    compileMembers ms = .ok (props, req) →
    props = ms.map (fun mb => (mb.1, schemaOrDefault (propFromType mb.2.2 "")))
    ∧ req = (ms.filter (fun mb => !mb.2.1)).map (fun mb => mb.1) := by
  intro ms
  induction ms with
  | nil =>
      intro props req hok
      simp only [compileMembers, Except.ok.injEq, Prod.mk.injEq] at hok
      obtain ⟨h1, h2⟩ := hok
      simp [← h1, ← h2]
  | cons mb rest ih =>
      intro props req hok
      obtain ⟨nm, opt, t⟩ := mb
      cases hp : propFromType t "" with
      | error e =>
          simp only [compileMembers, hp, Bind.bind, Except.bind] at hok
          exact Except.noConfusion hok
      | ok prop =>
          cases hr : compileMembers rest with
          | error e =>
              simp only [compileMembers, hp, hr, Bind.bind, Except.bind] at hok
              exact Except.noConfusion hok
          | ok pr =>
              obtain ⟨props2, req2⟩ := pr
              simp only [compileMembers, hp, hr, Bind.bind, Except.bind, Except.ok.injEq,
                Prod.mk.injEq] at hok
              obtain ⟨h1, h2⟩ := hok
              obtain ⟨ih1, ih2⟩ := ih props2 req2 hr
              subst ih1
              subst ih2
              constructor
              · simp [← h1, hp, schemaOrDefault]
              · cases opt with
                | true => simp [← h2, List.filter_cons]
                | false => simp [← h2, List.filter_cons]

/-- A successful parameter compilation lists exactly the non-optional
parameter names, in declared order, as the schema's required list. -/
theorem compileParams_req (name : String) :
    ∀ (ps : List (String × Bool × RTypeRef)) (props : List (String × SchemaNode))
      (req : List String),
    compileParams name ps = .ok (props, req) →
    req = (ps.filter (fun pb => !pb.2.1)).map (fun pb => pb.1) := by
  intro ps
  induction ps with
  | nil =>
      intro props req hok
      simp only [compileParams, Except.ok.injEq, Prod.mk.injEq] at hok
      simp [← hok.2]
  | cons pb rest ih =>
      intro props req hok
      obtain ⟨nm, opt, t⟩ := pb
      cases hp : propFromType t name with
      | error e =>
          simp only [compileParams, hp, Bind.bind, Except.bind] at hok
          exact Except.noConfusion hok
      | ok prop =>
          cases hr : compileParams name rest with
          | error e =>
              simp only [compileParams, hp, hr, Bind.bind, Except.bind] at hok
              exact Except.noConfusion hok
          | ok pr =>
              obtain ⟨props2, req2⟩ := pr
              simp only [compileParams, hp, hr, Bind.bind, Except.bind, Except.ok.injEq,
                Prod.mk.injEq] at hok
              have ih2 := ih props2 req2 hr
              subst ih2
              cases opt with
              | true => simp [← hok.2, List.filter_cons]
              | false => simp [← hok.2, List.filter_cons]


/-- C1: if dispatching the function invocation of some candidate raises the
fatal interrupt (`AgentInterruptException`), no candidate later in the
response order is parsed or dispatched — the outcome is the same for every
continuation `post` of the response — and the call terminates in failure
with that same interrupt value. -/
theorem c1_interrupt_aborts
    (a : Agent) (h : MsgHeap) (stringify : JsVal → String)
    (parseArgs : String → Except String JsVal) (prompt : AgentPrompt)
    (for_functions : List String) (input : JsVal) (n : Nat)
    (min? required? : Option Nat)
    (pre post : List Choice) (c : Choice) (fc : FunctionCallPayload)
    (args : JsVal) (vals : List JsVal) (msg : String)
    (acc : List AgentResult) (err : Option EngineError) (p : Nat)
    (hreq : required?.getD 1 ≤ n)
    (hmin : ∀ m, min? = some m → required?.getD 1 ≤ m ∧ m ≤ n)
    (hapi : a.api = fun _ => .ok ⟨pre ++ c :: post⟩)
    (hpre : scanChoices a parseArgs (decide (0 < for_functions.length)) min? pre [] none 0
            = .finished acc err p)
    (hfc : c.message.function_call = some fc)
    (hparse : parseArgs fc.arguments = .ok args)
    (hvals : objectValues args = some vals)
    (hcall : a.call fc.name vals = .funcInterrupt msg) :
    a.requestAnyWith h stringify parseArgs prompt for_functions input n min? required?
      = ⟨acc, some (.interrupt msg), 1⟩ := by
  rw [requestAnyWith_eq_of_valid a h stringify parseArgs prompt for_functions input n min?
    required? hreq hmin, hapi]
  simp only [scanChoices_append, hpre]
  simp only [scanChoices, hfc, hparse, hvals, hcall]

/-- Witness for C1 at a concrete run: the first candidate's dispatch
interrupts, the trailing candidate is never reached. -/
theorem c1_interrupt_aborts_witness :
    c1Agent.requestAnyWith [[]] (fun _ => "") (fun _ => .ok (.obj [])) c1Agent.prompt ["f"]
      .null 2 none none = ⟨[], some (.interrupt "stop"), 1⟩ :=
  c1_interrupt_aborts c1Agent [[]] (fun _ => "") (fun _ => .ok (.obj [])) c1Agent.prompt ["f"]
    .null 2 none none [] [⟨⟨some "later", none⟩⟩] ⟨⟨none, some ⟨"f", "argsjson"⟩⟩⟩
    ⟨"f", "argsjson"⟩ (.obj []) [] "stop" [] none 0
    (by decide) (fun m hm => Option.noConfusion hm) rfl rfl rfl rfl rfl rfl

/-- Counterexample to C2 as stated: with `min = 0` (and `required = 0`, which
passes validation), a candidate is still inspected and accepted — the
early-stop check runs only after an acceptance — so the accepted sequence
has length 1, not `min = 0`. -/
theorem c2_counterexample :
    c2CexAgent.requestAnyWith [[]] (fun _ => "") (fun _ => .error "parse") c2CexAgent.prompt
      [] .null 1 (some 0) (some 0)
      = ⟨[⟨.str "t", none⟩], none, 1⟩
    ∧ (c2CexAgent.requestAnyWith [[]] (fun _ => "") (fun _ => .error "parse") c2CexAgent.prompt
        [] .null 1 (some 0) (some 0)).emitted.length = 1
    ∧ (1 : Nat) ≠ 0 :=
  ⟨rfl, rfl, one_ne_zero⟩

/-- C2 (amended: `min >= 1`): once the accepted count reaches the defined
minimum the scan stops — the outcome does not depend on the candidates after
the stop — the accepted sequence has length exactly `min`, and a scan that
exhausts the response without stopping accepted fewer than `min`. -/
theorem c2_early_stop
    (a : Agent) (h : MsgHeap) (stringify : JsVal → String)
    (parseArgs : String → Except String JsVal) (prompt : AgentPrompt)
    (for_functions : List String) (input : JsVal) (n : Nat)
    (m : Nat) (required? : Option Nat)
    (cs post : List Choice) (acc : List AgentResult) (err : Option EngineError) (p : Nat)
    (hm1 : 1 ≤ m)
    (hreq : required?.getD 1 ≤ m) (hmn : m ≤ n)
    (hapi : a.api = fun _ => .ok ⟨cs ++ post⟩)
    (hscan : scanChoices a parseArgs (decide (0 < for_functions.length)) (some m) cs [] none 0
             = .stopped acc err p) :
    a.requestAnyWith h stringify parseArgs prompt for_functions input n (some m) required?
      = ⟨acc, none, 1⟩
    ∧ acc.length = m
    ∧ (∀ cs2 acc2 err2 p2,
        scanChoices a parseArgs (decide (0 < for_functions.length)) (some m) cs2 [] none 0
          = .finished acc2 err2 p2 → p2 < m) := by
  have hreqn : required?.getD 1 ≤ n := le_trans hreq hmn
  have hminh : ∀ m2, (some m : Option Nat) = some m2 → required?.getD 1 ≤ m2 ∧ m2 ≤ n := by
    intro m2 hm2
    cases hm2
    exact ⟨hreq, hmn⟩
  have hpm := scanChoices_stopped_min a parseArgs (decide (0 < for_functions.length)) m
    cs [] none 0 acc err p hscan (by omega)
  refine ⟨?_, ?_, ?_⟩
  · rw [requestAnyWith_eq_of_valid a h stringify parseArgs prompt for_functions input n
      (some m) required? hreqn hminh, hapi]
    simp only [scanChoices_append, hscan]
    have : ¬ (p < required?.getD 1) := by omega
    simp only [this, if_false]
  · simpa using hpm.2
  · intro cs2 acc2 err2 p2 hscan2
    exact scanChoices_finished_lt_min a parseArgs (decide (0 < for_functions.length)) m
      cs2 [] none 0 acc2 err2 p2 hscan2 (by omega)

/-- Witness for C2 at a concrete run: `n = 5`, `min = 2`, five acceptable
text candidates; the call stops after two acceptances. -/
theorem c2_early_stop_witness :
    c2StopAgent.requestAnyWith [[]] (fun _ => "") (fun _ => .error "parse") c2StopAgent.prompt
      [] .null 5 (some 2) none
      = ⟨[⟨.str "t1", none⟩, ⟨.str "t2", none⟩], none, 1⟩
    ∧ ([⟨.str "t1", none⟩, ⟨.str "t2", none⟩] : List AgentResult).length = 2 := by
  have hw := c2_early_stop c2StopAgent [[]] (fun _ => "") (fun _ => .error "parse")
    c2StopAgent.prompt [] .null 5 2 none
    [⟨⟨some "t1", none⟩⟩, ⟨⟨some "t2", none⟩⟩]
    [⟨⟨some "t3", none⟩⟩, ⟨⟨some "t4", none⟩⟩, ⟨⟨some "t5", none⟩⟩]
    [⟨.str "t1", none⟩, ⟨.str "t2", none⟩] none 2
    (by decide) (by decide) (by decide) rfl rfl
  exact ⟨hw.1, hw.2.1⟩

/-- C3: with `required` defaulting to 1, a quota-invariant violation
(`required > n`, or a defined `min` with `required > min` or `min > n`)
fails with a configuration error and zero transport calls; otherwise exactly
one transport call is issued. -/
theorem c3_config_validation
    (a : Agent) (h : MsgHeap) (stringify : JsVal → String)
    (parseArgs : String → Except String JsVal) (prompt : AgentPrompt)
    (for_functions : List String) (input : JsVal) (n : Nat)
    (min? required? : Option Nat) :
    ((required?.getD 1 > n ∨ (∃ m, min? = some m ∧ (required?.getD 1 > m ∨ m > n))) →
      ∃ msg, a.requestAnyWith h stringify parseArgs prompt for_functions input n min? required?
        = ⟨[], some (.config msg), 0⟩)
    ∧ (required?.getD 1 ≤ n → (∀ m, min? = some m → required?.getD 1 ≤ m ∧ m ≤ n) →
      (a.requestAnyWith h stringify parseArgs prompt for_functions input n min?
        required?).transportCalls = 1) := by
  constructor
  · intro hOr
    by_cases h1 : required?.getD 1 > n
    · simp only [Agent.requestAnyWith, if_pos h1]
      exact ⟨_, rfl⟩
    · rcases hOr with h1' | ⟨m, hm, hor⟩
      · exact absurd h1' h1
      · cases hm
        by_cases h2 : required?.getD 1 > m
        · have e2 : decide (required?.getD 1 > m) = true := decide_eq_true h2
          simp only [Agent.requestAnyWith, if_neg h1, e2, if_true]
          exact ⟨_, rfl⟩
        · have h3 : m > n := by
            rcases hor with h' | h'
            · exact absurd h' h2
            · exact h'
          have e2 : decide (required?.getD 1 > m) = false := decide_eq_false h2
          have e3 : decide (m > n) = true := decide_eq_true h3
          simp only [Agent.requestAnyWith, if_neg h1, e2, e3, Bool.false_eq_true, if_false,
            if_true]
          exact ⟨_, rfl⟩
  · intro hreq hmin
    rw [requestAnyWith_eq_of_valid a h stringify parseArgs prompt for_functions input n
      min? required? hreq hmin]
    cases hA : a.api ⟨a.options, n, prompt.prepareMessages h stringify input for_functions,
        if (a.getFunctionCalls.filter (fun f => for_functions.contains f.name)).isEmpty then none
        else some (a.getFunctionCalls.filter (fun f => for_functions.contains f.name))⟩ with
    | error e => simp only [hA]
    | ok resp =>
        simp only [hA]
        cases hS : scanChoices a parseArgs (decide (0 < for_functions.length)) min?
            resp.choices [] none 0 with
        | finished acc err p =>
            by_cases hp : p < required?.getD 1 <;>
              simp only [hp, if_true, if_false, Bool.false_eq_true]
        | stopped acc err p =>
            by_cases hp : p < required?.getD 1 <;>
              simp only [hp, if_true, if_false, Bool.false_eq_true]
        | interrupted m acc => simp only []

/-- Witness for C3: `required = 2 > min = 1` fails with a configuration
error and no transport call; a valid run issues exactly one transport
call. -/
theorem c3_config_validation_witness :
    (∃ msg, plainAgent.requestAnyWith [[]] (fun _ => "") (fun _ => .error "parse")
        plainAgent.prompt [] .null 5 (some 1) (some 2) = ⟨[], some (.config msg), 0⟩)
    ∧ (plainAgent.requestAnyWith [[]] (fun _ => "") (fun _ => .error "parse")
        plainAgent.prompt [] .null 1 none none).transportCalls = 1 :=
  ⟨(c3_config_validation plainAgent [[]] (fun _ => "") (fun _ => .error "parse")
      plainAgent.prompt [] .null 5 (some 1) (some 2)).1
      (Or.inr ⟨1, rfl, Or.inl (by decide)⟩),
   (c3_config_validation plainAgent [[]] (fun _ => "") (fun _ => .error "parse")
      plainAgent.prompt [] .null 1 none none).2 (by decide)
      (fun m hm => Option.noConfusion hm)⟩

/-- C4: when the scan completes by exhaustion or early stop with `processed`
accepted results, the call succeeds with the accepted results exactly as
accumulated, in scan order, when `processed >= required`, and otherwise
fails with the recorded error when one exists and the generic
`No function call found` error when none does. -/
theorem c4_scan_end
    (a : Agent) (h : MsgHeap) (stringify : JsVal → String)
    (parseArgs : String → Except String JsVal) (prompt : AgentPrompt)
    (for_functions : List String) (input : JsVal) (n : Nat)
    (min? required? : Option Nat)
    (cs : List Choice) (acc : List AgentResult) (err : Option EngineError) (p : Nat)
    (hreq : required?.getD 1 ≤ n)
    (hmin : ∀ m, min? = some m → required?.getD 1 ≤ m ∧ m ≤ n)
    (hapi : a.api = fun _ => .ok ⟨cs⟩)
    (hscan : scanChoices a parseArgs (decide (0 < for_functions.length)) min? cs [] none 0
              = .finished acc err p
           ∨ scanChoices a parseArgs (decide (0 < for_functions.length)) min? cs [] none 0
              = .stopped acc err p) :
    (required?.getD 1 ≤ p →
      a.requestAnyWith h stringify parseArgs prompt for_functions input n min? required?
        = ⟨acc, none, 1⟩)
    ∧ (p < required?.getD 1 →
      a.requestAnyWith h stringify parseArgs prompt for_functions input n min? required?
        = ⟨acc, some (err.getD .noFunctionCallFound), 1⟩) := by
  rw [requestAnyWith_eq_of_valid a h stringify parseArgs prompt for_functions input n
    min? required? hreq hmin, hapi]
  rcases hscan with hs | hs <;>
    simp only [hs] <;>
    constructor <;>
    intro hp
  · simp only [Nat.not_lt.mpr hp, if_false, Bool.false_eq_true]
  · simp only [hp, if_true]
  · simp only [Nat.not_lt.mpr hp, if_false, Bool.false_eq_true]
  · simp only [hp, if_true]

/-- Witness for C4 at concrete runs: one accepted candidate succeeds against
`required = 1` and fails against `required = 2` with the generic error. -/
theorem c4_scan_end_witness :
    c4Agent.requestAnyWith [[]] (fun _ => "") (fun _ => .error "parse") c4Agent.prompt
      [] .null 1 none none = ⟨[⟨.str "hi", none⟩], none, 1⟩
    ∧ c4Agent.requestAnyWith [[]] (fun _ => "") (fun _ => .error "parse") c4Agent.prompt
      [] .null 2 none (some 2) = ⟨[⟨.str "hi", none⟩], some .noFunctionCallFound, 1⟩ :=
  ⟨(c4_scan_end c4Agent [[]] (fun _ => "") (fun _ => .error "parse") c4Agent.prompt
      [] .null 1 none none [⟨⟨some "hi", none⟩⟩] [⟨.str "hi", none⟩] none 1
      (by decide) (fun m hm => Option.noConfusion hm) rfl (Or.inl rfl)).1 (by decide),
   (c4_scan_end c4Agent [[]] (fun _ => "") (fun _ => .error "parse") c4Agent.prompt
      [] .null 2 none (some 2) [⟨⟨some "hi", none⟩⟩] [⟨.str "hi", none⟩] none 1
      (by decide) (fun m hm => Option.noConfusion hm) rfl (Or.inl rfl)).2 (by decide)⟩

/-- C5 (refuted — code bug): the builder's constructor copies the agent's
prompt with `copy()`, but `copy` shares the message array reference, so
`addUserMessage` through the builder appends to the agent's canonical
prompt's message list. -/
theorem c5_builder_mutates_agent_prompt :
    (AgentRequestBuilder.new c5Agent)._prompt = c5Agent.prompt.copy
    ∧ (AgentRequestBuilder.new c5Agent)._prompt.msgs = c5Agent.prompt.msgs
    ∧ c5Agent.getPrompt.getMessages [[]] = []
    ∧ c5Agent.getPrompt.getMessages
        (AgentRequestBuilder.addUserMessage [[]] (AgentRequestBuilder.new c5Agent) "hello").1
      = [⟨"user", some "hello", none, none⟩] :=
  ⟨rfl, rfl, rfl, rfl⟩

/-- C6: a successfully compiled Object descriptor yields `type = \"object\"`,
one compiled property per member in declared order, and a required list of
exactly the non-optional member names in declared order; an Enum descriptor
yields `type = \"string\"` with the value names in declared order, never
numeric codes. -/
theorem c6_object_enum_schema
    (ms : List (String × Bool × RTypeRef)) (vs : List (String × Int)) (ctx : String)
    (node : SchemaNode)
    (hok : propFromType (.obj ms) ctx = .ok node) :
    node = .mk "object" none none
      (some (ms.map (fun mb => (mb.1, schemaOrDefault (propFromType mb.2.2 "")))))
      (some ((ms.filter (fun mb => !mb.2.1)).map (fun mb => mb.1)))
    ∧ propFromType (.enum vs) ctx
      = .ok (.mk "string" none (some (vs.map Prod.fst)) none none) := by
  refine ⟨?_, rfl⟩
  cases hcm : compileMembers ms with
  | error e =>
      simp only [propFromType, hcm, Bind.bind, Except.bind] at hok
      exact Except.noConfusion hok
  | ok pr =>
      obtain ⟨props, req⟩ := pr
      simp only [propFromType, hcm, Bind.bind, Except.bind, Except.ok.injEq] at hok
      obtain ⟨h1, h2⟩ := compileMembers_ok ms props req hcm
      subst h1
      subst h2
      exact hok.symm

/-- Witness for C6 at a concrete object and enum descriptor. -/
theorem c6_object_enum_schema_witness :
    (.mk "object" none none
       (some [("a", .mk "number" none none none none), ("b", .mk "string" none none none none)])
       (some ["a"]) : SchemaNode)
      = .mk "object" none none
          (some (([("a", false, .cls "class Number"), ("b", true, .cls "class String")] :
              List (String × Bool × RTypeRef)).map
            (fun mb => (mb.1, schemaOrDefault (propFromType mb.2.2 "")))))
          (some ((([("a", false, .cls "class Number"), ("b", true, .cls "class String")] :
              List (String × Bool × RTypeRef)).filter (fun mb => !mb.2.1)).map
            (fun mb => mb.1)))
    ∧ propFromType (.enum [("Red", 0), ("Green", 1)]) "f"
      = .ok (.mk "string" none (some ["Red", "Green"]) none none) :=
  c6_object_enum_schema [("a", false, .cls "class Number"), ("b", true, .cls "class String")]
    [("Red", 0), ("Green", 1)] "f"
    (.mk "object" none none
      (some [("a", .mk "number" none none none none), ("b", .mk "string" none none none none)])
      (some ["a"])) rfl

/-- Counterexample to C7 as stated: compiling an Array of an unrecognized
tag with context `myFunc` fails with a message that does not reference
`myFunc`. -/
theorem c7_counterexample :
    propFromType (.arr (.unknown "tuple" "SomeTuple")) "myFunc"
      = .error "Unknown type SomeTuple in function "
    ∧ ¬ ("myFunc".toList <:+: "Unknown type SomeTuple in function ".toList) :=
  ⟨rfl, by decide⟩

/-- C7 (amended): an unrecognized tag at top level fails with a message that
carries the supplied context name, but for a tag nested inside an Array or
Object the recursive call passes the default empty context, so the message
ends in an empty function name. -/
theorem c7_context_name (kind s ctx nm : String) (opt : Bool) :
    propFromType (.unknown kind s) ctx
      = .error ("Unknown type " ++ s ++ " in function " ++ ctx)
    ∧ propFromType (.arr (.unknown kind s)) ctx
      = .error ("Unknown type " ++ s ++ " in function ")
    ∧ propFromType (.obj [(nm, opt, .unknown kind s)]) ctx
      = .error ("Unknown type " ++ s ++ " in function ") := by
  refine ⟨rfl, ?_, ?_⟩
  · simp only [propFromType, Bind.bind, Except.bind, String.append_empty]
  · simp only [propFromType, compileMembers, Bind.bind, Except.bind, String.append_empty]

/-- C8: dispatch fails with an unknown-function error for unregistered
names, fails with an argument-count mismatch exactly when the supplied count
differs from the compiled schema's required-list length, and otherwise
invokes the registered callable on the supplied values; registration with
zero parameters stores no schema (an empty required list), and the required
list holds exactly the non-optional parameter names. -/
theorem c8_dispatch :
    (∀ (a : Agent) (name : String) (args : List JsVal),
       a.functionCalls.lookup name = none →
       a.call name args = .unknownFunction name)
    ∧ (∀ (a : Agent) (name : String) (args : List JsVal) (fc : AgentFunctionCall),
       a.functionCalls.lookup name = some fc →
       (fc.argNames.length ≠ args.length →
         a.call name args = .argCountMismatch fc.argNames.length args.length)
       ∧ (fc.argNames.length = args.length →
         a.call name args = (match fc.func args with
           | .ret v => .ok v
           | .raise msg => .funcError msg
           | .interrupt msg => .funcInterrupt msg)))
    ∧ (∀ (f : List JsVal → FuncOutcome) (name : String) (d : Option String),
       AgentFunctionCall.fromFunction f [] name d = .ok ⟨f, name, d, none⟩)
    ∧ (∀ (f : List JsVal → FuncOutcome) (ps : List (String × Bool × RTypeRef))
         (name : String) (d : Option String) (fc : AgentFunctionCall),
       AgentFunctionCall.fromFunction f ps name d = .ok fc →
       fc.argNames = (ps.filter (fun pb => !pb.2.1)).map (fun pb => pb.1)) := by
  refine ⟨?_, ?_, ?_, ?_⟩
  · intro a name args hlook
    simp only [Agent.call, hlook]
  · intro a name args fc hlook
    constructor
    · intro hne
      simp only [Agent.call, hlook, if_pos hne]
    · intro heq
      simp only [Agent.call, hlook, heq, ne_eq, not_true_eq_false, if_false]
  · intro f name d
    rfl
  · intro f ps name d fc hok
    cases ps with
    | nil =>
        simp only [AgentFunctionCall.fromFunction, List.isEmpty_nil, if_true,
          Except.ok.injEq] at hok
        subst hok
        rfl
    | cons pb rest =>
        cases hcp : compileParams name (pb :: rest) with
        | error e =>
            simp only [AgentFunctionCall.fromFunction, List.isEmpty_cons, Bool.false_eq_true,
              if_false, hcp, Bind.bind, Except.bind] at hok
            exact Except.noConfusion hok
        | ok pr =>
            obtain ⟨props, req⟩ := pr
            simp only [AgentFunctionCall.fromFunction, List.isEmpty_cons, Bool.false_eq_true,
              if_false, hcp, Bind.bind, Except.bind, Except.ok.injEq] at hok
            subst hok
            simpa [AgentFunctionCall.argNames, SchemaNode.required, Option.getD] using
              compileParams_req name (pb :: rest) props req hcp

/-- Witness for C8 at a concrete registry. -/
theorem c8_dispatch_witness :
    c8Agent.call "nope" [] = .unknownFunction "nope"
    ∧ c8Agent.call "g" [] = .argCountMismatch 1 0
    ∧ c8Agent.call "g" [.null] = .ok .null
    ∧ AgentFunctionCall.fromFunction (fun _ => .ret .null) [] "z" none
      = .ok ⟨fun _ => .ret .null, "z", none, none⟩
    ∧ (∃ fc, AgentFunctionCall.fromFunction (fun _ => .ret .null)
        [("x", false, .cls "class Number"), ("o", true, .cls "class String")] "g" none
        = .ok fc ∧ fc.argNames = ["x"]) := by
  refine ⟨?_, ?_, ?_, ?_, ?_⟩
  · exact c8_dispatch.1 c8Agent "nope" [] rfl
  · exact (c8_dispatch.2.1 c8Agent "g" []
      ⟨fun _ => .ret .null, "g", none,
       some (.mk "object" none none (some [("x", .mk "number" none none none none)])
         (some ["x"]))⟩ rfl).1 (by decide)
  · exact (c8_dispatch.2.1 c8Agent "g" [.null]
      ⟨fun _ => .ret .null, "g", none,
       some (.mk "object" none none (some [("x", .mk "number" none none none none)])
         (some ["x"]))⟩ rfl).2 rfl
  · exact c8_dispatch.2.2.1 (fun _ => .ret .null) "z" none
  · refine ⟨⟨fun _ => .ret .null, "g", none,
      some (.mk "object" none none
        (some [("x", .mk "number" none none none none),
               ("o", .mk "string" none none none none)])
        (some ["x"]))⟩, rfl, ?_⟩
    exact c8_dispatch.2.2.2 (fun _ => .ret .null)
      [("x", false, .cls "class Number"), ("o", true, .cls "class String")] "g" none
      ⟨fun _ => .ret .null, "g", none,
       some (.mk "object" none none
         (some [("x", .mk "number" none none none none),
                ("o", .mk "string" none none none none)])
         (some ["x"]))⟩ rfl

/-- C9: in a function-restricted call a plain-text candidate is skipped with
no acceptance, no quota count and no recorded error; a response of only
plain-text candidates therefore fails with the generic error under the
default `required = 1`; with an empty function subset a plain-text candidate
is accepted with its text as the value. -/
theorem c9_text_candidates :
    (∀ (a : Agent) (parseArgs : String → Except String JsVal) (min? : Option Nat)
       (c : Choice) (rest : List Choice) (acc : List AgentResult)
       (err : Option EngineError) (p : Nat),
       c.message.function_call = none →
       scanChoices a parseArgs true min? (c :: rest) acc err p
         = scanChoices a parseArgs true min? rest acc err p)
    ∧ (∀ (a : Agent) (h : MsgHeap) (stringify : JsVal → String)
         (parseArgs : String → Except String JsVal) (prompt : AgentPrompt)
         (for_functions : List String) (input : JsVal) (n : Nat) (min? : Option Nat)
         (cs : List Choice),
         0 < for_functions.length →
         1 ≤ n →
         (∀ m, min? = some m → 1 ≤ m ∧ m ≤ n) →
         a.api = (fun _ => .ok ⟨cs⟩) →
         (∀ c ∈ cs, c.message.function_call = none) →
         a.requestAnyWith h stringify parseArgs prompt for_functions input n min? none
           = ⟨[], some .noFunctionCallFound, 1⟩)
    ∧ (∀ (a : Agent) (h : MsgHeap) (stringify : JsVal → String)
         (parseArgs : String → Except String JsVal) (prompt : AgentPrompt)
         (input : JsVal) (c : Choice) (s : String),
         c.message = ⟨some s, none⟩ →
         a.api = (fun _ => .ok ⟨[c]⟩) →
         a.requestAnyWith h stringify parseArgs prompt [] input 1 none none
           = ⟨[⟨.str s, none⟩], none, 1⟩) := by
  refine ⟨?_, ?_, ?_⟩
  · intro a parseArgs min? c rest acc err p hc
    simp only [scanChoices, hc, if_true]
  · intro a h stringify parseArgs prompt for_functions input n min? cs hffs hn hmin hapi hall
    have hisfc : decide (0 < for_functions.length) = true := decide_eq_true hffs
    rw [requestAnyWith_eq_of_valid a h stringify parseArgs prompt for_functions input n
      min? none (by simpa using hn) (fun m hm => by simpa using hmin m hm), hapi]
    simp only [hisfc, scanChoices_all_text a parseArgs min? cs [] none 0 hall]
    simp only [Option.getD_some, Option.getD_none, Nat.lt_iff_add_one_le, Nat.zero_add,
      le_refl, if_true]
  · intro a h stringify parseArgs prompt input c s hc hapi
    rw [requestAnyWith_eq_of_valid a h stringify parseArgs prompt [] input 1 none none
      (by simp) (fun m hm => by simp at hm), hapi]
    simp only [scanChoices, hc, List.length_nil, Nat.lt_irrefl, decide_eq_false_iff_not,
      not_false_iff, if_false, minReached, contentValue]
    rfl

/-- Witness for C9 at concrete runs. -/
theorem c9_text_candidates_witness :
    scanChoices c9Agent (fun _ => .error "parse") true none [⟨⟨some "x", none⟩⟩] [] none 0
      = scanChoices c9Agent (fun _ => .error "parse") true none [] [] none 0
    ∧ c9Agent.requestAnyWith [[]] (fun _ => "") (fun _ => .error "parse") c9Agent.prompt
        ["f"] .null 1 none none = ⟨[], some .noFunctionCallFound, 1⟩
    ∧ c9Agent.requestAnyWith [[]] (fun _ => "") (fun _ => .error "parse") c9Agent.prompt
        [] .null 1 none none = ⟨[⟨.str "hi", none⟩], none, 1⟩ :=
  ⟨c9_text_candidates.1 c9Agent (fun _ => .error "parse") none ⟨⟨some "x", none⟩⟩ [] [] none 0
      rfl,
   c9_text_candidates.2.1 c9Agent [[]] (fun _ => "") (fun _ => .error "parse") c9Agent.prompt
      ["f"] .null 1 none [⟨⟨some "hi", none⟩⟩] (by decide) (by decide)
      (fun m hm => Option.noConfusion hm) rfl
      (fun c hc => by rw [List.mem_singleton] at hc; subst hc; rfl),
   c9_text_candidates.2.2 c9Agent [[]] (fun _ => "") (fun _ => .error "parse") c9Agent.prompt
      .null ⟨⟨some "hi", none⟩⟩ "hi" rfl rfl⟩

/-- C10: the engine passes `Object.values` of the parsed payload — the
values in the payload's own key order — as positional arguments, so two
payloads equal as maps but with opposite key order produce calls with
permuted arguments, observed through a function returning its argument
list. -/
theorem c10_payload_key_order (v1 v2 : JsVal) :
    (∀ kvs : List (String × JsVal), objectValues (.obj kvs) = some (kvs.map Prod.snd))
    ∧ (∀ k : String, ([("a", v1), ("b", v2)] : List (String × JsVal)).lookup k
        = ([("b", v2), ("a", v1)] : List (String × JsVal)).lookup k)
    ∧ (recorderAgent.requestAnyWith [[]] (fun _ => "") (recorderParse v1 v2)
        recorderAgent.prompt ["f"] .null 2 none none).emitted
      = [⟨.arr [v1, v2], some ⟨"f", "payload1"⟩⟩, ⟨.arr [v2, v1], some ⟨"f", "payload2"⟩⟩] := by
  refine ⟨fun kvs => rfl, ?_, ?_⟩
  · intro k
    by_cases h1 : k = "a"
    · subst h1; rfl
    · by_cases h2 : k = "b"
      · subst h2; rfl
      · have e1 : (k == "a") = false := beq_eq_false_iff_ne.mpr h1
        have e2 : (k == "b") = false := beq_eq_false_iff_ne.mpr h2
        simp [List.lookup, e1, e2]
  · rfl
